import Mathlib

/-!
# Verification of the at-risk-member detection logic of `church_app.py`

This file is a shallow embedding of the attendance/risk-summary core of the
church attendance system (`src/church_app.py`), together with theorems that
settle the specification claims about it.

Modelling choices:
* A service date is a `Nat` (the source stores ISO date strings and sorts
  them; any linearly ordered date domain embeds into `Nat` order-faithfully).
* `pandas` rows become `List`s of structures; dataframe filters become
  `List.filter`, `.unique()` becomes `List.dedup` (both keep first
  occurrences, like pandas), `sorted(..., reverse=True)` becomes
  `List.insertionSort (· ≥ ·)`, and `.iloc[0]` on a filtered frame becomes
  `List.find?` (first row in input order).
* The `Last_Updated` column of a summary row is `datetime.now()` at emission
  time, pure clock metadata that no claim is about; it is omitted from
  `SummaryRecord`.
* The write-back `write_sheet_data(ATTENDANCE_SUMMARY_TAB, df)` clears the
  sheet and rewrites it; a run of `update_attendance_summary` therefore
  either performs no write (`RunResult.noRun`, the function returned `False`
  early) or exactly one replacement write (`RunResult.wrote entries`).
  `applyRun` gives the resulting sink state.
-/

namespace ChurchApp

/-- A row of the Members Master sheet (the fields the engine reads). -/
structure Member where
  member_name : String
  home_cell_group : String
deriving Repr, DecidableEq

/-- A row of the Church Attendance sheet (the fields the engine reads).
`present` is the raw `Present` cell, `"Yes"`/`"No"` when well-formed. -/
structure AttendanceRecord where
  date : Nat
  home_cell_group : String
  member_name : String
  present : String
deriving Repr, DecidableEq

/-- A row of the Attendance Summary sheet as built by
`update_attendance_summary` (minus the pure-clock `Last_Updated` column). -/
structure SummaryRecord where
  member_name : String
  home_cell_group : String
  last_3_attendances : String
  missed_count : Nat
  status : String
deriving Repr, DecidableEq

/-- The constant `Status` string of line 248 of the source. -/
def dangerStatus : String := "⚠️ DANGER - Contact Member"

/-- Line 211: `sorted(attendance_df['Date'].unique(), reverse=True)[:3]` —
the distinct service dates anywhere in the attendance sheet, sorted
descending, truncated to (at most) the 3 most recent. -/
def uniqueDates (att : List AttendanceRecord) : List Nat :=
  (((att.map (fun r => r.date)).dedup).insertionSort (fun a b => a ≥ b)).take 3

/-- Lines 225–228 and 235: the first attendance record (in sheet order) whose
`Member_Name` and `Date` match. Restricting first to dates in the window
(line 227) does not change which row is first for a given window date. -/
def findRecord (att : List AttendanceRecord) (name : String) (d : Nat) :
    Option AttendanceRecord :=
  att.find? (fun r => r.member_name == name && r.date == d)

/-- Lines 235–243: the status recorded for `(name, d)` — the `Present` value
of the first matching row, or `"No"` when no record exists (absent by
default). -/
def statusFor (att : List AttendanceRecord) (name : String) (d : Nat) : String :=
  match findRecord att name d with
  | some r => r.present
  | none => "No"

/-- Lines 231–243: the `attendance_status` list accumulated over the window
dates in descending order. -/
def memberStatuses (att : List AttendanceRecord) (window : List Nat)
    (name : String) : List String :=
  window.map (statusFor att name)

/-- Lines 232–244: `missed_count` — incremented exactly when the status
appended for a date equals `"No"` (explicitly recorded or defaulted). -/
def missedCount (att : List AttendanceRecord) (window : List Nat)
    (name : String) : Nat :=
  (memberStatuses att window name).countP (fun s => s == "No")

/-- Lines 246–257: a member produces a summary row iff `missed_count >= 2`;
the row joins the statuses with `" | "`. -/
def evalMember (att : List AttendanceRecord) (window : List Nat) (m : Member) :
    Option SummaryRecord :=
  if 2 ≤ missedCount att window m.member_name then
    some { member_name := m.member_name
           home_cell_group := m.home_cell_group
           last_3_attendances :=
             String.intercalate " | " (memberStatuses att window m.member_name)
           missed_count := missedCount att window m.member_name
           status := dangerStatus }
  else none

/-- Lines 220–257: the `summary_records` list, one pass over the roster,
every member evaluated against the same system-wide window. -/
def summaryRecords (roster : List Member) (att : List AttendanceRecord) :
    List SummaryRecord :=
  roster.filterMap (evalMember att (uniqueDates att))

/-- Outcome of one run of `update_attendance_summary`: either the function
returned `False` before reaching the write-back (`noRun`), or it performed
its single clear-and-rewrite of the Attendance Summary sheet with the given
rows (`wrote`). -/
inductive RunResult where
  | noRun : RunResult
  | wrote : List SummaryRecord → RunResult
deriving Repr, DecidableEq

/-- Lines 199–272: `update_attendance_summary`. Early exits: empty
attendance or empty roster (line 206), or fewer than 3 distinct dates
(line 213). Otherwise one replacement write of the computed rows — lines
260–267 write a populated frame or an empty frame, in both cases via the
clearing `write_sheet_data`. -/
def update_attendance_summary (roster : List Member)
    (att : List AttendanceRecord) : RunResult :=
  if att.isEmpty || roster.isEmpty then RunResult.noRun
  else if (uniqueDates att).length < 3 then RunResult.noRun
  else RunResult.wrote (summaryRecords roster att)

/-- Effect of a run on the Attendance Summary sheet: `wrote` clears the
prior contents and leaves exactly the new rows; `noRun` leaves it untouched. -/
def applyRun (res : RunResult) (sink : List SummaryRecord) :
    List SummaryRecord :=
  match res with
  | RunResult.noRun => sink
  | RunResult.wrote entries => entries

/-- Lines 190–197: members of one home cell, in master-sheet order. -/
def get_members_by_cell (roster : List Member) (cell : String) : List Member :=
  roster.filter (fun m => m.home_cell_group == cell)

/-- Lines 389–399: the `new_records` list built from the submitted
checkboxes — one row per distinct member name of the cell (the Python dict
`attendance_dict` is keyed by name, so duplicate names collapse), `Present`
serialized as `"Yes"`/`"No"`. -/
def newAttendanceRecords (d : Nat) (cell : String) (names : List String)
    (present : String → Bool) : List AttendanceRecord :=
  names.map (fun n =>
    { date := d
      home_cell_group := cell
      member_name := n
      present := if present n then "Yes" else "No" })

/-- Lines 389–418 of `attendance_page`: on submit, drop every existing
record of the exact `(date, cell)` pair, append the fresh rows for the
cell's members, write the store back, then invoke
`update_attendance_summary`. Returns the new store and the engine's run
result. -/
def attendance_page_submit (roster : List Member)
    (att : List AttendanceRecord) (d : Nat) (cell : String)
    (present : String → Bool) : List AttendanceRecord × RunResult :=
  let names := ((get_members_by_cell roster cell).map (fun m => m.member_name)).dedup
  let newAtt :=
    (att.filter (fun r => !(r.date == d && r.home_cell_group == cell)))
      ++ newAttendanceRecords d cell names present
  (newAtt, update_attendance_summary roster newAtt)

/-! ### Helper lemmas about the window and record lookup -/

/-- All dates mentioned by the attendance sheet, with multiplicity. -/
def datesOf (att : List AttendanceRecord) : List Nat :=
  att.map (fun r => r.date)

lemma uniqueDates_def (att : List AttendanceRecord) :
    uniqueDates att = ((datesOf att).dedup.insertionSort (· ≥ ·)).take 3 := rfl

lemma sortedDates_sorted (att : List AttendanceRecord) :
    List.Sorted (· ≥ ·) ((datesOf att).dedup.insertionSort (· ≥ ·)) :=
  List.sorted_insertionSort _ _

lemma sortedDates_nodup (att : List AttendanceRecord) :
    ((datesOf att).dedup.insertionSort (· ≥ ·)).Nodup :=
  (List.perm_insertionSort _ _).nodup_iff.mpr (List.nodup_dedup _)

lemma sortedDates_pairwise_gt (att : List AttendanceRecord) :
    ((datesOf att).dedup.insertionSort (· ≥ ·)).Pairwise (· > ·) :=
  ((sortedDates_sorted att).and (sortedDates_nodup att)).imp
    (fun h => lt_of_le_of_ne h.1 (Ne.symm h.2))

lemma uniqueDates_pairwise_gt (att : List AttendanceRecord) :
    (uniqueDates att).Pairwise (· > ·) := by
  rw [uniqueDates_def]
  exact (sortedDates_pairwise_gt att).sublist (List.take_sublist _ _)

lemma uniqueDates_nodup (att : List AttendanceRecord) :
    (uniqueDates att).Nodup :=
  (uniqueDates_pairwise_gt att).imp ne_of_gt

lemma uniqueDates_length (att : List AttendanceRecord) :
    (uniqueDates att).length = min 3 (datesOf att).dedup.length := by
  rw [uniqueDates_def, List.length_take, List.length_insertionSort]

lemma mem_of_mem_uniqueDates {att : List AttendanceRecord} {d : Nat}
    (h : d ∈ uniqueDates att) : d ∈ datesOf att := by
  rw [uniqueDates_def] at h
  have := List.take_subset 3 _ h
  rwa [List.mem_insertionSort, List.mem_dedup] at this

/-- The window holds the largest distinct dates: any recorded date not in
the window is smaller than every window date. -/
lemma lt_of_not_mem_uniqueDates {att : List AttendanceRecord} {d : Nat}
    (hd : d ∈ datesOf att) (hnot : d ∉ uniqueDates att) :
    ∀ w ∈ uniqueDates att, d < w := by
  intro w hw
  set s := (datesOf att).dedup.insertionSort (· ≥ ·) with hs
  have hds : d ∈ s := by
    rw [hs, List.mem_insertionSort, List.mem_dedup]; exact hd
  have hsplit : s = s.take 3 ++ s.drop 3 := (List.take_append_drop 3 s).symm
  have hpair : (s.take 3 ++ s.drop 3).Pairwise (· > ·) := by
    rw [← hsplit]; exact sortedDates_pairwise_gt att
  have hdrop : d ∈ s.drop 3 := by
    rcases (List.mem_append.mp (hsplit ▸ hds)) with h | h
    · exact absurd h hnot
    · exact h
  exact (List.pairwise_append.mp hpair).2.2 w hw d hdrop

/-- The window depends only on which dates occur in the sheet. -/
lemma uniqueDates_eq_of_mem_iff {att att' : List AttendanceRecord}
    (h : ∀ a, a ∈ datesOf att ↔ a ∈ datesOf att') :
    uniqueDates att = uniqueDates att' := by
  have hperm : List.Perm (datesOf att).dedup (datesOf att').dedup :=
    (List.perm_ext_iff_of_nodup (List.nodup_dedup _) (List.nodup_dedup _)).2
      (fun a => by rw [List.mem_dedup, List.mem_dedup]; exact h a)
  have hsort :
      (datesOf att).dedup.insertionSort (· ≥ ·) =
        (datesOf att').dedup.insertionSort (· ≥ ·) :=
    List.eq_of_perm_of_sorted
      ((List.perm_insertionSort _ _).trans
        (hperm.trans (List.perm_insertionSort _ _).symm))
      (sortedDates_sorted att) (sortedDates_sorted att')
  rw [uniqueDates_def, uniqueDates_def, hsort]

lemma statusFor_eq_map_getD (att : List AttendanceRecord) (name : String)
    (d : Nat) :
    statusFor att name d =
      ((findRecord att name d).map (fun r => r.present)).getD "No" := by
  unfold statusFor
  cases findRecord att name d <;> rfl

/-- `find?` projected through `f` is permutation-invariant as soon as any
two candidate rows agree on `f`. -/
lemma find?_map_congr_of_perm {α β : Type} {p : α → Bool} {f : α → β}
    {l l' : List α} (hperm : List.Perm l l')
    (hc : ∀ a ∈ l, ∀ b ∈ l, p a → p b → f a = f b) :
    (l.find? p).map f = (l'.find? p).map f := by
  cases hfind : l.find? p with
  | none =>
    have hnone : l'.find? p = none := by
      rw [List.find?_eq_none] at hfind ⊢
      intro x hx
      exact hfind x (hperm.mem_iff.mpr hx)
    rw [hnone]
  | some a =>
    have ha : a ∈ l := List.mem_of_find?_eq_some hfind
    have hpa : p a := List.find?_some hfind
    have hsome : (l'.find? p).isSome := by
      rw [List.find?_isSome]
      exact ⟨a, hperm.mem_iff.mp ha, hpa⟩
    obtain ⟨b, hfind'⟩ := Option.isSome_iff_exists.mp hsome
    have hb : b ∈ l := hperm.mem_iff.mpr (List.mem_of_find?_eq_some hfind')
    have hpb : p b := List.find?_some hfind'
    rw [hfind']
    show some (f a) = some (f b)
    exact congrArg some (hc a ha b hb hpa hpb)

/-- Duplicate-consistency: any two rows for the same member and date carry
the same `Present` value. -/
def ConsistentDuplicates (att : List AttendanceRecord) : Prop :=
  ∀ r ∈ att, ∀ r' ∈ att, r.member_name = r'.member_name → r.date = r'.date →
    r.present = r'.present

instance (att : List AttendanceRecord) :
    Decidable (ConsistentDuplicates att) := by
  unfold ConsistentDuplicates
  infer_instance

lemma statusFor_congr_of_perm {att att' : List AttendanceRecord}
    (hperm : List.Perm att att') (hc : ConsistentDuplicates att)
    (name : String) (d : Nat) :
    statusFor att name d = statusFor att' name d := by
  rw [statusFor_eq_map_getD, statusFor_eq_map_getD]
  unfold findRecord
  have := find?_map_congr_of_perm (f := fun r => r.present)
    (p := fun r => r.member_name == name && r.date == d) hperm ?_
  · rw [this]
  · intro a ha b hb hpa hpb
    simp only [Bool.and_eq_true, beq_iff_eq] at hpa hpb
    exact hc a ha b hb (hpa.1.trans hpb.1.symm) (hpa.2.trans hpb.2.symm)

lemma evalMember_congr {att att' : List AttendanceRecord} {w : List Nat}
    (hstat : ∀ name, ∀ d ∈ w, statusFor att name d = statusFor att' name d)
    (m : Member) : evalMember att w m = evalMember att' w m := by
  have hms : memberStatuses att w m.member_name =
      memberStatuses att' w m.member_name :=
    List.map_congr_left (fun d hd => hstat _ d hd)
  unfold evalMember missedCount
  rw [hms]

lemma summaryRecords_congr (roster : List Member)
    {att att' : List AttendanceRecord}
    (huniq : uniqueDates att = uniqueDates att')
    (hstat : ∀ name, ∀ d ∈ uniqueDates att,
      statusFor att name d = statusFor att' name d) :
    summaryRecords roster att = summaryRecords roster att' := by
  unfold summaryRecords
  have hfun : (fun m => evalMember att (uniqueDates att) m) =
      (fun m => evalMember att' (uniqueDates att') m) := by
    funext m
    rw [← huniq]
    exact evalMember_congr hstat m
  exact congrArg (fun f => roster.filterMap f) hfun

lemma update_congr (roster : List Member) {att att' : List AttendanceRecord}
    (hemp : att.isEmpty = att'.isEmpty)
    (huniq : uniqueDates att = uniqueDates att')
    (hstat : ∀ name, ∀ d ∈ uniqueDates att,
      statusFor att name d = statusFor att' name d) :
    update_attendance_summary roster att =
      update_attendance_summary roster att' := by
  unfold update_attendance_summary
  rw [hemp, huniq, summaryRecords_congr roster huniq hstat]

lemma summaryRecords_perm_invariant (roster : List Member)
    {att att' : List AttendanceRecord} (hperm : List.Perm att att')
    (hc : ConsistentDuplicates att) :
    summaryRecords roster att = summaryRecords roster att' := by
  have huniq : uniqueDates att = uniqueDates att' :=
    uniqueDates_eq_of_mem_iff (fun a => (hperm.map (fun r => r.date)).mem_iff)
  exact summaryRecords_congr roster huniq
    (fun name d _ => statusFor_congr_of_perm hperm hc name d)

/-! ### Concrete data used by counterexamples and witnesses -/

/-- The spec's example member. -/
def amaRoster : List Member := [{ member_name := "Ama", home_cell_group := "A" }]

/-- Three services (dates 3 > 2 > 1): Ama absent twice, present on the
oldest. -/
def attPresent1 : List AttendanceRecord :=
  [{ date := 3, home_cell_group := "A", member_name := "Ama", present := "No" }
   , { date := 2, home_cell_group := "A", member_name := "Ama", present := "No" }
   , { date := 1, home_cell_group := "A", member_name := "Ama", present := "Yes" }]

/-- Three services recorded only for group "B": Ama of group "A" has no
record at all. -/
def attNoRecords : List AttendanceRecord :=
  [{ date := 3, home_cell_group := "B", member_name := "Kofi", present := "Yes" }
   , { date := 2, home_cell_group := "B", member_name := "Kofi", present := "Yes" }
   , { date := 1, home_cell_group := "B", member_name := "Kofi", present := "Yes" }]

/-! ### Claim theorems -/

/-- **C1, counterexample.** With window `[3, 2, 1]`, Ama misses dates 3
and 2 but is recorded present (`"Yes"`) on window date 1. The claim says
such a member is NOT flagged; the code nevertheless emits a summary entry
for her (`missed_count = 2` alone decides the flag). -/
theorem flagged_despite_recent_presence :
    (1 ∈ uniqueDates attPresent1) ∧
    statusFor attPresent1 "Ama" 1 = "Yes" ∧
    missedCount attPresent1 (uniqueDates attPresent1) "Ama" = 2 ∧
    update_attendance_summary amaRoster attPresent1 =
      RunResult.wrote
        [{ member_name := "Ama", home_cell_group := "A",
           last_3_attendances := "No | No | Yes", missed_count := 2,
           status := dangerStatus }] :=
  ⟨by decide, rfl, by decide, rfl⟩

/-- **C1, amended.** A member is flagged — a summary entry is emitted into
the run's records — if and only if `missed_count ≥ 2`. Being recorded
present on one of the 3 window dates does *not* suppress the flag: the
code never consults an `attended_recently` condition. -/
theorem flagged_iff_missed_ge_two (att : List AttendanceRecord)
    (roster : List Member) (m : Member) (hm : m ∈ roster) :
    ((evalMember att (uniqueDates att) m).isSome ↔
      2 ≤ missedCount att (uniqueDates att) m.member_name) ∧
    (∀ e, evalMember att (uniqueDates att) m = some e →
      e ∈ summaryRecords roster att) := by
  constructor
  · unfold evalMember
    by_cases h : 2 ≤ missedCount att (uniqueDates att) m.member_name
    · simp [h]
    · simp [h]
  · intro e he
    exact List.mem_filterMap.mpr ⟨m, hm, he⟩

/-- **C1, amended — witness.** Ama (present on window date 1, missed 2) is
emitted into the summary. -/
theorem flagged_iff_missed_ge_two_witness :
    (⟨"Ama", "A"⟩ : Member) ∈ amaRoster ∧
    (evalMember attPresent1 (uniqueDates attPresent1) ⟨"Ama", "A"⟩).isSome := by
  refine ⟨by decide, ?_⟩
  exact (flagged_iff_missed_ge_two attPresent1 amaRoster ⟨"Ama", "A"⟩
    (by decide)).1.mpr (by decide)

lemma evalMember_all_no {att : List AttendanceRecord} {w : List Nat}
    (m : Member)
    (h : memberStatuses att w m.member_name = ["No", "No", "No"]) :
    evalMember att w m =
      some { member_name := m.member_name,
             home_cell_group := m.home_cell_group,
             last_3_attendances := "No | No | No", missed_count := 3,
             status := dangerStatus } := by
  unfold evalMember missedCount
  rw [h]
  rfl

/-- **C2.** A window date with no record for the member contributes a
defaulted `"No"` status. A member with no record on any of the 3 window
dates gets statuses `["No", "No", "No"]`, `missed_count = 3`, and is
flagged — with a summary row identical (name/group aside) to that of a
member whose three records are explicit `"No"`s, since any member whose
statuses come out `["No", "No", "No"]` gets the same row. -/
theorem zero_records_fully_absent (att : List AttendanceRecord) (m : Member)
    (hwin : (uniqueDates att).length = 3)
    (hnone : ∀ d ∈ uniqueDates att, findRecord att m.member_name d = none) :
    (∀ name d, findRecord att name d = none → statusFor att name d = "No") ∧
    memberStatuses att (uniqueDates att) m.member_name = ["No", "No", "No"] ∧
    missedCount att (uniqueDates att) m.member_name = 3 ∧
    evalMember att (uniqueDates att) m =
      some { member_name := m.member_name,
             home_cell_group := m.home_cell_group,
             last_3_attendances := "No | No | No", missed_count := 3,
             status := dangerStatus } ∧
    (∀ m' : Member,
      memberStatuses att (uniqueDates att) m'.member_name =
        ["No", "No", "No"] →
      evalMember att (uniqueDates att) m' =
        some { member_name := m'.member_name,
               home_cell_group := m'.home_cell_group,
               last_3_attendances := "No | No | No", missed_count := 3,
               status := dangerStatus }) := by
  have hdefault : ∀ name d, findRecord att name d = none →
      statusFor att name d = "No" := by
    intro name d hfind
    unfold statusFor
    rw [hfind]
  have hstat : memberStatuses att (uniqueDates att) m.member_name =
      ["No", "No", "No"] := by
    have : memberStatuses att (uniqueDates att) m.member_name =
        List.replicate 3 "No" := by
      refine List.eq_replicate_iff.mpr ⟨?_, ?_⟩
      · unfold memberStatuses
        rw [List.length_map, hwin]
      · intro s hs
        obtain ⟨d, hd, rfl⟩ := List.mem_map.mp hs
        exact hdefault _ d (hnone d hd)
    simpa using this
  refine ⟨hdefault, hstat, ?_, evalMember_all_no m hstat, fun m' h' => evalMember_all_no m' h'⟩
  unfold missedCount
  rw [hstat]
  rfl

/-- **C2 — witness.** Ama, with zero attendance records (all records in
the sheet are for Kofi of group "B"), is flagged as fully absent. -/
theorem zero_records_fully_absent_witness :
    (uniqueDates attNoRecords).length = 3 ∧
    evalMember attNoRecords (uniqueDates attNoRecords) ⟨"Ama", "A"⟩ =
      some { member_name := "Ama", home_cell_group := "A",
             last_3_attendances := "No | No | No", missed_count := 3,
             status := dangerStatus } := by
  refine ⟨by decide, ?_⟩
  exact (zero_records_fully_absent attNoRecords ⟨"Ama", "A"⟩ (by decide)
    (by decide)).2.2.2.1

/-- **C5.** Empty attendance, empty roster, or fewer than 3 distinct
service dates anywhere in the sheet: the run returns the early-exit
outcome (the source returns `False` before the write-back) with no rows
computed, and the summary sheet's prior contents are untouched. -/
theorem insufficient_data_no_write (roster : List Member)
    (att : List AttendanceRecord) (sink : List SummaryRecord)
    (h : att = [] ∨ roster = [] ∨ (datesOf att).dedup.length < 3) :
    update_attendance_summary roster att = RunResult.noRun ∧
    applyRun (update_attendance_summary roster att) sink = sink := by
  have hrun : update_attendance_summary roster att = RunResult.noRun := by
    unfold update_attendance_summary
    rcases h with h | h | h
    · subst h; simp
    · subst h; simp
    · by_cases h1 : (att.isEmpty || roster.isEmpty) = true
      · rw [if_pos h1]
      · have hlt : (uniqueDates att).length < 3 := by
          rw [uniqueDates_length]; omega
        rw [if_neg h1, if_pos hlt]
  exact ⟨hrun, by rw [hrun]; rfl⟩

/-- **C5 — witness.** With only 2 distinct dates recorded, nothing is
computed and a stale sink survives. -/
theorem insufficient_data_no_write_witness :
    update_attendance_summary amaRoster
        [{ date := 2, home_cell_group := "A", member_name := "Ama",
           present := "No" },
         { date := 1, home_cell_group := "A", member_name := "Ama",
           present := "No" }] = RunResult.noRun ∧
    applyRun (update_attendance_summary amaRoster
        [{ date := 2, home_cell_group := "A", member_name := "Ama",
           present := "No" },
         { date := 1, home_cell_group := "A", member_name := "Ama",
           present := "No" }])
      [{ member_name := "Stale", home_cell_group := "S",
         last_3_attendances := "No | No | No", missed_count := 3,
         status := dangerStatus }] =
      [{ member_name := "Stale", home_cell_group := "S",
         last_3_attendances := "No | No | No", missed_count := 3,
         status := dangerStatus }] :=
  insufficient_data_no_write amaRoster _ _ (Or.inr (Or.inr (by decide)))

/-- **C6.** A full computation (nonempty inputs, at least 3 distinct
dates) performs exactly one replacement write, of exactly the computed
rows; whatever the summary sheet held before — and even when the computed
flagged set is empty — its end state is exactly the just-computed
entries. -/
theorem full_run_replaces_sink (roster : List Member)
    (att : List AttendanceRecord) (hatt : att ≠ []) (hros : roster ≠ [])
    (hdates : 3 ≤ (datesOf att).dedup.length) :
    update_attendance_summary roster att =
      RunResult.wrote (summaryRecords roster att) ∧
    ∀ sink, applyRun (update_attendance_summary roster att) sink =
      summaryRecords roster att := by
  have hrun : update_attendance_summary roster att =
      RunResult.wrote (summaryRecords roster att) := by
    unfold update_attendance_summary
    have h1 : (att.isEmpty || roster.isEmpty) = false := by
      simp [List.isEmpty_iff, hatt, hros]
    have h2 : ¬ (uniqueDates att).length < 3 := by
      rw [uniqueDates_length]; omega
    rw [if_neg (by simp [h1]), if_neg h2]
  exact ⟨hrun, fun sink => by rw [hrun]; rfl⟩

/-- Three services on which Ama was always present: nobody is at risk. -/
def attAllYes : List AttendanceRecord :=
  [{ date := 3, home_cell_group := "A", member_name := "Ama", present := "Yes" }
   , { date := 2, home_cell_group := "A", member_name := "Ama", present := "Yes" }
   , { date := 1, home_cell_group := "A", member_name := "Ama", present := "Yes" }]

/-- **C6 — witness.** A run that flags nobody still wipes a stale sink. -/
theorem full_run_replaces_sink_witness :
    update_attendance_summary amaRoster attAllYes = RunResult.wrote [] ∧
    applyRun (update_attendance_summary amaRoster attAllYes)
      [{ member_name := "Stale", home_cell_group := "S",
         last_3_attendances := "No | No | No", missed_count := 3,
         status := dangerStatus }] = [] := by
  have h := full_run_replaces_sink amaRoster attAllYes (by decide) (by decide)
    (by decide)
  constructor
  · rw [h.1]; rfl
  · rw [h.2]; rfl

/-- **C3.** The window is the set of distinct service dates drawn from the
entire attendance input (across all groups), sorted strictly descending
and truncated to 3 — its length is `min 3 (#distinct dates)`, every window
date occurs in the input, and every recorded date outside the window is
older than every window date — and the summary evaluates every roster
member, whatever the member's group, against this single window. -/
theorem window_top3_systemwide (roster : List Member)
    (att : List AttendanceRecord) :
    (uniqueDates att).Pairwise (· > ·) ∧
    (uniqueDates att).length = min 3 (datesOf att).dedup.length ∧
    (∀ d ∈ uniqueDates att, d ∈ datesOf att) ∧
    (∀ d ∈ datesOf att, d ∉ uniqueDates att → ∀ w ∈ uniqueDates att, d < w) ∧
    summaryRecords roster att =
      roster.filterMap (evalMember att (uniqueDates att)) :=
  ⟨uniqueDates_pairwise_gt att, uniqueDates_length att,
   fun _ hd => mem_of_mem_uniqueDates hd,
   fun _ hd hnot => lt_of_not_mem_uniqueDates hd hnot, rfl⟩

/-- Four distinct dates, Ama absent on all; group "B" supplies date 4. -/
def attFourDates : List AttendanceRecord :=
  [{ date := 1, home_cell_group := "A", member_name := "Ama", present := "No" }
   , { date := 2, home_cell_group := "A", member_name := "Ama", present := "No" }
   , { date := 3, home_cell_group := "A", member_name := "Ama", present := "No" }
   , { date := 4, home_cell_group := "B", member_name := "Kofi", present := "Yes" }]

/-- **C3 — witness.** With recorded dates `{1, 2, 3, 4}` the window is the
three most recent; the excluded date 1 is older than each window date. -/
theorem window_top3_systemwide_witness :
    uniqueDates attFourDates = [4, 3, 2] ∧
    ∀ w ∈ uniqueDates attFourDates, 1 < w := by
  refine ⟨by decide, ?_⟩
  exact (window_top3_systemwide amaRoster attFourDates).2.2.2.1 1 (by decide)
    (by decide)

lemma eq_nil_of_uniqueDates_eq_nil {att : List AttendanceRecord}
    (h : uniqueDates att = []) : att = [] := by
  rw [uniqueDates_def] at h
  have hlen : ((datesOf att).dedup.insertionSort (· ≥ ·)).length = 0 := by
    rcases List.take_eq_nil_iff.mp h with h3 | hs
    · exact absurd h3 (by omega)
    · rw [hs]; rfl
  rw [List.length_insertionSort] at hlen
  have hded : (datesOf att).dedup = [] := List.length_eq_zero.mp hlen
  have hdates : datesOf att = [] := (List.dedup_eq_nil _).mp hded
  unfold datesOf at hdates
  exact List.map_eq_nil_iff.mp hdates

/-- **C4.** If appending extra records leaves the top-3 distinct-date
window unchanged and every extra record's date lies outside that window
(e.g. a 4th, older service date), then every computed summary entry is
unchanged — and so is the whole run. -/
theorem outside_window_records_irrelevant (roster : List Member)
    (att extra : List AttendanceRecord)
    (hwin : uniqueDates (att ++ extra) = uniqueDates att)
    (hout : ∀ r ∈ extra, r.date ∉ uniqueDates att) :
    summaryRecords roster (att ++ extra) = summaryRecords roster att ∧
    update_attendance_summary roster (att ++ extra) =
      update_attendance_summary roster att := by
  have hstat : ∀ name, ∀ d ∈ uniqueDates (att ++ extra),
      statusFor (att ++ extra) name d = statusFor att name d := by
    intro name d hd
    rw [hwin] at hd
    unfold statusFor findRecord
    rw [List.find?_append]
    have hnone : extra.find? (fun r => r.member_name == name && r.date == d)
        = none := by
      rw [List.find?_eq_none]
      intro r hr hp
      simp only [Bool.and_eq_true, beq_iff_eq] at hp
      exact hout r hr (hp.2 ▸ hd)
    rw [hnone]
    cases att.find? (fun r => r.member_name == name && r.date == d) <;> rfl
  refine ⟨summaryRecords_congr roster hwin hstat, ?_⟩
  by_cases hatt : att = []
  · have hextra : extra = [] := by
      have : uniqueDates (att ++ extra) = [] := by
        rw [hwin, hatt]; rfl
      have := eq_nil_of_uniqueDates_eq_nil this
      simpa [hatt] using this
    rw [hatt, hextra]
    rfl
  · have h1 : att.isEmpty = false := by simp [List.isEmpty_iff, hatt]
    have h2 : (att ++ extra).isEmpty = false := by
      simp [List.isEmpty_iff, List.append_eq_nil, hatt]
    exact update_congr roster (h2.trans h1.symm) hwin hstat

/-- Records of an older, already-out-of-window service date 0. -/
def extraOld : List AttendanceRecord :=
  [{ date := 0, home_cell_group := "A", member_name := "Ama", present := "Yes" }]

/-- **C4 — witness.** Appending an older (date 0) record to the
three-service history changes neither the entries nor the run. -/
theorem outside_window_records_irrelevant_witness :
    uniqueDates (attPresent1 ++ extraOld) = uniqueDates attPresent1 ∧
    summaryRecords amaRoster (attPresent1 ++ extraOld) =
      summaryRecords amaRoster attPresent1 ∧
    update_attendance_summary amaRoster (attPresent1 ++ extraOld) =
      update_attendance_summary amaRoster attPresent1 := by
  refine ⟨by decide, ?_, ?_⟩
  · exact (outside_window_records_irrelevant amaRoster attPresent1 extraOld
      (by decide) (by decide)).1
  · exact (outside_window_records_irrelevant amaRoster attPresent1 extraOld
      (by decide) (by decide)).2

/-- **C7.** A flagged entry's serialized statuses are exactly the
per-window-date status tokens joined with the literal `" | "`, the window
being strictly date-descending (most recent first); and the computation is
invariant under any reordering of the attendance input (duplicate rows
agreeing), so the date-descending order of the tokens never depends on the
input record order. -/
theorem recent_statuses_most_recent_first (roster : List Member)
    (att att' : List AttendanceRecord) (m : Member) (e : SummaryRecord)
    (he : evalMember att (uniqueDates att) m = some e) :
    e.last_3_attendances =
      String.intercalate " | "
        ((uniqueDates att).map (statusFor att m.member_name)) ∧
    (uniqueDates att).Pairwise (· > ·) ∧
    (List.Perm att att' → ConsistentDuplicates att →
      summaryRecords roster att = summaryRecords roster att') := by
  refine ⟨?_, uniqueDates_pairwise_gt att,
    fun hperm hc => summaryRecords_perm_invariant roster hperm hc⟩
  unfold evalMember at he
  by_cases h2 : 2 ≤ missedCount att (uniqueDates att) m.member_name
  · rw [if_pos h2] at he
    cases he
    rfl
  · rw [if_neg h2] at he
    cases he

/-- **C7 — witness.** Ama's flagged entry joins her statuses most recent
first, and reversing the attendance sheet changes nothing. -/
theorem recent_statuses_most_recent_first_witness :
    String.intercalate " | "
        ((uniqueDates attPresent1).map (statusFor attPresent1 "Ama")) =
      "No | No | Yes" ∧
    summaryRecords amaRoster attPresent1 =
      summaryRecords amaRoster attPresent1.reverse := by
  have h := recent_statuses_most_recent_first amaRoster attPresent1
    attPresent1.reverse ⟨"Ama", "A"⟩
    { member_name := "Ama", home_cell_group := "A",
      last_3_attendances := "No | No | Yes", missed_count := 2,
      status := dangerStatus } (by decide)
  exact ⟨h.1.symm, h.2.2 (by decide) (by decide)⟩

/-- **C8.** Submitting attendance for the pair `(d, cell)` leaves the
store holding, for that pair, exactly one fresh record per (distinct)
member name of that cell and nothing else, while the records of every
other `(date, group)` pair are exactly as before; the risk engine is then
invoked on the written store. -/
theorem submit_replaces_pair_and_runs_engine (roster : List Member)
    (att : List AttendanceRecord) (d : Nat) (cell : String)
    (present : String → Bool) :
    ((attendance_page_submit roster att d cell present).1.filter
        (fun r => r.date == d && r.home_cell_group == cell) =
      newAttendanceRecords d cell
        (((get_members_by_cell roster cell).map (fun m => m.member_name)).dedup)
        present) ∧
    (((get_members_by_cell roster cell).map (fun m => m.member_name)).dedup).Nodup ∧
    ((newAttendanceRecords d cell
        (((get_members_by_cell roster cell).map (fun m => m.member_name)).dedup)
        present).map (fun r => r.member_name) =
      ((get_members_by_cell roster cell).map (fun m => m.member_name)).dedup) ∧
    ((attendance_page_submit roster att d cell present).1.filter
        (fun r => !(r.date == d && r.home_cell_group == cell)) =
      att.filter (fun r => !(r.date == d && r.home_cell_group == cell))) ∧
    (attendance_page_submit roster att d cell present).2 =
      update_attendance_summary roster
        (attendance_page_submit roster att d cell present).1 := by
  set names :=
    ((get_members_by_cell roster cell).map (fun m => m.member_name)).dedup
    with hnames
  have hsubmit : (attendance_page_submit roster att d cell present).1 =
      att.filter (fun r => !(r.date == d && r.home_cell_group == cell))
        ++ newAttendanceRecords d cell names present := rfl
  have hnew_pair : ∀ x ∈ newAttendanceRecords d cell names present,
      (x.date == d && x.home_cell_group == cell) = true := by
    intro x hx
    obtain ⟨n, _, rfl⟩ := List.mem_map.mp hx
    simp [newAttendanceRecords]
  refine ⟨?_, List.nodup_dedup _, ?_, ?_, rfl⟩
  · rw [hsubmit, List.filter_append]
    have hold : (att.filter
        (fun r => !(r.date == d && r.home_cell_group == cell))).filter
        (fun r => r.date == d && r.home_cell_group == cell) = [] := by
      rw [List.filter_eq_nil_iff]
      intro a ha hpa
      have hneg := (List.mem_filter.mp ha).2
      rw [hpa] at hneg
      simp at hneg
    rw [hold, List.filter_eq_self.mpr hnew_pair, List.nil_append]
  · unfold newAttendanceRecords
    rw [List.map_map]
    exact List.map_id _
  · rw [hsubmit, List.filter_append]
    have hnew : (newAttendanceRecords d cell names present).filter
        (fun r => !(r.date == d && r.home_cell_group == cell)) = [] := by
      rw [List.filter_eq_nil_iff]
      intro a ha hp
      rw [hnew_pair a ha] at hp
      simp at hp
    rw [hnew, List.append_nil, List.filter_filter]
    simp only [Bool.and_self]

/-- **C9.** The status used for a `(member, date)` window pair is the
`Present` value of the first matching record in input order, and a record
that duplicates the member and date of some earlier record can be dropped
without changing the run at all. -/
theorem first_duplicate_record_wins (roster : List Member)
    (att1 att2 : List AttendanceRecord) (r : AttendanceRecord) :
    ((∀ x ∈ att1, ¬(x.member_name = r.member_name ∧ x.date = r.date)) →
      statusFor (att1 ++ r :: att2) r.member_name r.date = r.present) ∧
    ((∃ r0 ∈ att1, r0.member_name = r.member_name ∧ r0.date = r.date) →
      update_attendance_summary roster (att1 ++ r :: att2) =
        update_attendance_summary roster (att1 ++ att2)) := by
  constructor
  · intro hfirst
    unfold statusFor findRecord
    rw [List.find?_append]
    have h1 : att1.find?
        (fun x => x.member_name == r.member_name && x.date == r.date)
        = none := by
      rw [List.find?_eq_none]
      intro x hx hp
      simp only [Bool.and_eq_true, beq_iff_eq] at hp
      exact hfirst x hx ⟨hp.1, hp.2⟩
    rw [h1, List.find?_cons_of_pos _ (by simp)]
    rfl
  · rintro ⟨r0, hr0, hname, hdate⟩
    have hrdate : r.date ∈ att1.map (fun x => x.date) := by
      rw [← hdate]
      exact List.mem_map_of_mem _ hr0
    have hmem : ∀ a,
        a ∈ datesOf (att1 ++ r :: att2) ↔ a ∈ datesOf (att1 ++ att2) := by
      intro a
      unfold datesOf
      rw [List.map_append, List.map_append, List.map_cons,
        List.mem_append, List.mem_append, List.mem_cons]
      constructor
      · rintro (h | h | h)
        · exact Or.inl h
        · exact Or.inl (h ▸ hrdate)
        · exact Or.inr h
      · rintro (h | h)
        · exact Or.inl h
        · exact Or.inr (Or.inr h)
    have huniq := uniqueDates_eq_of_mem_iff hmem
    have hstat : ∀ name, ∀ dd ∈ uniqueDates (att1 ++ r :: att2),
        statusFor (att1 ++ r :: att2) name dd =
          statusFor (att1 ++ att2) name dd := by
      intro name dd _
      unfold statusFor findRecord
      rw [List.find?_append, List.find?_append]
      by_cases hp : (r.member_name == name && r.date == dd) = true
      · simp only [Bool.and_eq_true, beq_iff_eq] at hp
        have hsome : (att1.find?
            (fun x => x.member_name == name && x.date == dd)).isSome := by
          rw [List.find?_isSome]
          refine ⟨r0, hr0, ?_⟩
          simp only [Bool.and_eq_true, beq_iff_eq]
          exact ⟨hname.trans hp.1, hdate.trans hp.2⟩
        obtain ⟨a, ha⟩ := Option.isSome_iff_exists.mp hsome
        rw [ha]
        rfl
      · have hcons : List.find?
            (fun x => x.member_name == name && x.date == dd) (r :: att2) =
            List.find? (fun x => x.member_name == name && x.date == dd) att2 :=
          List.find?_cons_of_neg att2 hp
        rw [hcons]
    have h1 : att1 ≠ [] := List.ne_nil_of_mem hr0
    have e1 : (att1 ++ r :: att2).isEmpty = false := by
      simp [List.isEmpty_iff, List.append_eq_nil, h1]
    have e2 : (att1 ++ att2).isEmpty = false := by
      simp [List.isEmpty_iff, List.append_eq_nil, h1]
    exact update_congr roster (e1.trans e2.symm) huniq hstat

/-- **C9 — witness.** A conflicting second record for `("Ama", date 3)` is
invisible: the first record decides the status and dropping the duplicate
leaves the run unchanged. -/
theorem first_duplicate_record_wins_witness :
    statusFor
        ([{ date := 2, home_cell_group := "A", member_name := "Ama",
            present := "No" }] ++
          { date := 3, home_cell_group := "A", member_name := "Ama",
            present := "Yes" } :: []) "Ama" 3 = "Yes" ∧
    update_attendance_summary amaRoster
        ([{ date := 3, home_cell_group := "A", member_name := "Ama",
            present := "No" }] ++
          { date := 3, home_cell_group := "A", member_name := "Ama",
            present := "Yes" } ::
            [{ date := 2, home_cell_group := "A", member_name := "Ama",
               present := "No" },
             { date := 1, home_cell_group := "A", member_name := "Ama",
               present := "No" }]) =
      update_attendance_summary amaRoster
        ([{ date := 3, home_cell_group := "A", member_name := "Ama",
            present := "No" }] ++
          [{ date := 2, home_cell_group := "A", member_name := "Ama",
             present := "No" },
           { date := 1, home_cell_group := "A", member_name := "Ama",
             present := "No" }]) := by
  constructor
  · exact (first_duplicate_record_wins amaRoster
      [{ date := 2, home_cell_group := "A", member_name := "Ama",
         present := "No" }] []
      { date := 3, home_cell_group := "A", member_name := "Ama",
        present := "Yes" }).1 (by decide)
  · exact (first_duplicate_record_wins amaRoster
      [{ date := 3, home_cell_group := "A", member_name := "Ama",
         present := "No" }]
      [{ date := 2, home_cell_group := "A", member_name := "Ama",
         present := "No" },
       { date := 1, home_cell_group := "A", member_name := "Ama",
         present := "No" }]
      { date := 3, home_cell_group := "A", member_name := "Ama",
        present := "Yes" }).2
      ⟨{ date := 3, home_cell_group := "A", member_name := "Ama",
         present := "No" }, by decide, rfl, rfl⟩

/-- **C10.** A record whose `Present` value is any string `v` other than
the exact token `"No"` never counts toward `missed_count` — the count over
the window equals the count with that date removed — yet `v` sits verbatim
in the member's status list, which a flagged entry serializes into its
`Last_3_Attendances` string. -/
theorem non_no_value_not_missed (att : List AttendanceRecord) (m : Member)
    (d : Nat) (v : String) (hd : d ∈ uniqueDates att)
    (hv : statusFor att m.member_name d = v) (hne : v ≠ "No") :
    missedCount att (uniqueDates att) m.member_name =
      missedCount att ((uniqueDates att).erase d) m.member_name ∧
    ∀ e, evalMember att (uniqueDates att) m = some e →
      v ∈ memberStatuses att (uniqueDates att) m.member_name ∧
      e.last_3_attendances =
        String.intercalate " | "
          (memberStatuses att (uniqueDates att) m.member_name) := by
  constructor
  · unfold missedCount memberStatuses
    have hperm : List.Perm (uniqueDates att) (d :: (uniqueDates att).erase d) :=
      List.perm_cons_erase hd
    rw [(hperm.map (statusFor att m.member_name)).countP_eq
      (fun s => s == "No")]
    rw [List.map_cons, List.countP_cons, hv, beq_eq_false_iff_ne.mpr hne]
    rfl
  · intro e he
    refine ⟨List.mem_map.mpr ⟨d, hd, hv⟩, ?_⟩
    unfold evalMember at he
    by_cases h2 : 2 ≤ missedCount att (uniqueDates att) m.member_name
    · rw [if_pos h2] at he
      cases he
      rfl
    · rw [if_neg h2] at he
      cases he

/-- Ama's record on date 3 carries the malformed value `"maybe"`. -/
def attMaybe : List AttendanceRecord :=
  [{ date := 3, home_cell_group := "A", member_name := "Ama", present := "maybe" }
   , { date := 2, home_cell_group := "A", member_name := "Ama", present := "No" }
   , { date := 1, home_cell_group := "A", member_name := "Ama", present := "No" }]

/-- **C10 — witness.** The `"maybe"` on date 3 does not count as a miss,
but appears verbatim in Ama's flagged status list and string. -/
theorem non_no_value_not_missed_witness :
    missedCount attMaybe (uniqueDates attMaybe) "Ama" =
      missedCount attMaybe ((uniqueDates attMaybe).erase 3) "Ama" ∧
    "maybe" ∈ memberStatuses attMaybe (uniqueDates attMaybe) "Ama" ∧
    ({ member_name := "Ama", home_cell_group := "A",
       last_3_attendances := "maybe | No | No", missed_count := 2,
       status := dangerStatus } : SummaryRecord).last_3_attendances =
      String.intercalate " | "
        (memberStatuses attMaybe (uniqueDates attMaybe) "Ama") := by
  have h := non_no_value_not_missed attMaybe ⟨"Ama", "A"⟩ 3 "maybe"
    (by decide) (by decide) (by decide)
  have h2 := h.2
    { member_name := "Ama", home_cell_group := "A",
      last_3_attendances := "maybe | No | No", missed_count := 2,
      status := dangerStatus } (by decide)
  exact ⟨h.1, h2.1, h2.2⟩

end ChurchApp
